import Mathlib

/-!
Shallow embedding of the metamask-login tutorial backend
(src/backend/main.go, first stage of the tutorial) together with the parts of
the authentication handshake that the source leaves as an empty stub handler
and that are therefore modelled from the specification (its section 9 records
that signature verification and signin are unimplemented in the source).

Conventions of the embedding:
  - the Go map `users map[string]User` becomes an association list
    `List (String × User)`; Go map lookup is `List.lookup`;
  - HTTP status codes are plain naturals; handler functions take the parsed
    request payload (JSON decoding is transport glue outside the core) and
    return the status, the response body where there is one, and the storage
    after the call;
  - `crypto/rand.Int(rand.Reader, max)` returns a uniform integer r with
    0 ≤ r < max; the random draw is passed to `GetNonce` as an explicit
    argument, and `noncePossible` is the predicate describing which draws the
    generator can produce;
  - `strings.ToLower` is applied by the handlers only to strings that already
    passed the `hexRegex` check, hence only to ASCII; on ASCII it agrees with
    `Char.toLower` applied characterwise.
-/

namespace Backend

/-- The three error values declared at the top of main.go. -/
inductive AppError where
  | userNotExists
  | userExists
  | invalidAddress
  deriving DecidableEq, Repr

/-- Go struct `User { Address string; Nonce string }`. -/
structure User where
  address : String
  nonce : String
  deriving DecidableEq, Repr

/-- Go struct `MemStorage`; the mutex only serializes access and is invisible
in a sequential shallow embedding, so the state is just the user map. -/
structure MemStorage where
  users : List (String × User)
  deriving DecidableEq, Repr

/-- `NewMemStorage`: an empty user map. -/
def NewMemStorage : MemStorage := ⟨[]⟩

/-- `MemStorage.CreateIfNotExists`: error `ErrUserExists` when the key is
present, otherwise insert the user under its `Address` field. -/
def MemStorage.CreateIfNotExists (m : MemStorage) (u : User) :
    Except AppError MemStorage :=
  match m.users.lookup u.address with
  | some _ => .error .userExists
  | none => .ok ⟨(u.address, u) :: m.users⟩

/-- `MemStorage.Get`: error `ErrUserNotExists` when the key is absent. -/
def MemStorage.Get (m : MemStorage) (address : String) : Except AppError User :=
  match m.users.lookup address with
  | some u => .ok u
  | none => .error .userNotExists

/-- One character of the class `[a-fA-F0-9]` of `hexRegex`. -/
def isGoHexDigit (c : Char) : Bool :=
  ('a' ≤ c && c ≤ 'f') || ('A' ≤ c && c ≤ 'F') || ('0' ≤ c && c ≤ '9')

/-- The anchored regular expression `0x[a-fA-F0-9]X40` of main.go (X40 being
the repetition count 40, braces spelt out): the whole string is `0x` followed
by exactly forty hex digits. -/
def hexRegexMatch (s : String) : Bool :=
  match s.data with
  | c₀ :: c₁ :: rest =>
    c₀ == '0' && c₁ == 'x' && rest.length == 40 && rest.all isGoHexDigit
  | _ => false

/-- Go struct `RegisterPayload { Address string }`. -/
structure RegisterPayload where
  address : String
  deriving DecidableEq, Repr

/-- `RegisterPayload.Validate`: `ErrInvalidAddress` when the regex does not
match, nil (here `none`) otherwise. -/
def RegisterPayload.Validate (p : RegisterPayload) : Option AppError :=
  if !hexRegexMatch p.address then some .invalidAddress else none

/-- Characterwise ASCII lowercasing; agrees with Go `strings.ToLower` on the
ASCII strings the handlers apply it to (they lowercase only addresses that
already matched `hexRegex`). -/
def goToLower (s : String) : String := ⟨s.data.map Char.toLower⟩

/-- The once-computed upper bound of `GetNonce`: 2 to the 130 minus 1. -/
def nonceMax : Nat := 2 ^ 130 - 1

/-- The value `rand.Int(rand.Reader, max)` hands to `GetNonce` on success: a
uniform draw r with 0 ≤ r < max (the upper bound is exclusive). -/
def noncePossible (r : Nat) : Prop := r < nonceMax

instance (r : Nat) : Decidable (noncePossible r) := by
  unfold noncePossible; infer_instance

/-- `GetNonce` on the success path, as a function of the random draw r it
received from `rand.Int`: `big.Int.Text(10)` renders r in decimal. -/
def GetNonce (r : Nat) : String := Nat.repr r

/-- `RegisterHandler`, after the JSON body has been decoded into p and with
the random draw r of `GetNonce` made explicit (the rand.Reader failure path,
status 500, is environmental and outside the embedding): validate, build the
user with the lowercased address and the fresh nonce, insert, and answer
201 Created, 400 on a bad address, or 409 Conflict on `ErrUserExists`. -/
def RegisterHandler (storage : MemStorage) (p : RegisterPayload) (r : Nat) :
    Nat × MemStorage :=
  match p.Validate with
  | some _ => (400, storage)
  | none =>
    let u : User := { address := goToLower p.address, nonce := GetNonce r }
    match storage.CreateIfNotExists u with
    | .error e => if e = .userExists then (409, storage) else (500, storage)
    | .ok s₁ => (201, s₁)

/-- `UserNonceHandler`: check the address against `hexRegex`, look the
lowercased address up, and answer 200 with the stored nonce, 400 on a bad
address, or 404 on `ErrUserNotExists`. The storage after the call is
returned as the last component; the handler only reads it. -/
def UserNonceHandler (storage : MemStorage) (address : String) :
    Nat × Option String × MemStorage :=
  if !hexRegexMatch address then (400, none, storage)
  else
    match storage.Get (goToLower address) with
    | .error e =>
      if e = .userNotExists then (404, none, storage) else (500, none, storage)
    | .ok user => (200, some user.nonce, storage)

/-- Replace the value stored under key k; Go map assignment for a key that is
already present. -/
def setKey (l : List (String × User)) (k : String) (u : User) :
    List (String × User) :=
  l.map fun q => if q.1 = k then (k, u) else q

/-- Number of entries of the association list carrying key k. -/
def countKey (l : List (String × User)) (k : String) : Nat :=
  (l.filter fun q => q.1 = k).length

/-- One character of the class `[a-f0-9]`: a lowercase hex digit. -/
def isLowerHexDigit (c : Char) : Bool :=
  ('a' ≤ c && c ≤ 'f') || ('0' ≤ c && c ≤ '9')

/-- The string is `0x` followed by exactly forty lowercase hex digits. -/
def lowerHexMatch (s : String) : Bool :=
  match s.data with
  | c₀ :: c₁ :: rest =>
    c₀ == '0' && c₁ == 'x' && rest.length == 40 && rest.all isLowerHexDigit
  | _ => false

/-- The spec wording of the address format, stated independently of the
regex engine: the character list is a 0, an x, then exactly 40 characters
that are each a decimal digit, a lowercase hex letter or an uppercase hex
letter. Used only to be compared with `hexRegexMatch`. -/
def specHexPattern (s : String) : Prop :=
  ∃ t : List Char, s.data = '0' :: 'x' :: t ∧ t.length = 40 ∧
    ∀ c ∈ t, ('0' ≤ c ∧ c ≤ '9') ∨ ('a' ≤ c ∧ c ≤ 'f') ∨ ('A' ≤ c ∧ c ≤ 'F')

/-- Two characters that are the same up to letter case: equal, or one is the
ASCII-lowercased form of the other uppercase one. -/
def charCaseVariant (c₁ c₂ : Char) : Prop :=
  c₁ = c₂ ∨ (c₁.isUpper ∧ c₂ = c₁.toLower) ∨ (c₂.isUpper ∧ c₁ = c₂.toLower)

instance (c₁ c₂ : Char) : Decidable (charCaseVariant c₁ c₂) := by
  unfold charCaseVariant
  infer_instance

/-- Errors of the spec-modelled `ConsumeAndRotate`. -/
inductive ConsumeError where
  | notFound
  | nonceMismatch
  deriving DecidableEq, Repr

/-- Outcome of the spec-modelled `Login`. -/
inductive SigninResult where
  | ok (token : String)
  | invalidAddress
  | notFound
  | nonceMismatch
  | invalidSignature
  deriving DecidableEq, Repr

/-- HTTP status attached to each `Login` outcome by section 6 of the spec. -/
def SigninResult.status : SigninResult → Nat
  | .ok _ => 200
  | .invalidAddress => 400
  | .notFound => 404
  | .nonceMismatch => 401
  | .invalidSignature => 401

/-- Modelled from the spec: `UserStore.ConsumeAndRotate(address,
presentedNonce)` of section 4.2, missing from src (SigninHandler is an empty
stub). Atomically: not found if the address is unregistered; compare the
presented nonce with the stored one, a mismatch failing `NonceMismatch`;
on a match store a fresh nonce and return the account as it was before the
rotation. The fresh random nonce is passed in explicitly. -/
def ConsumeAndRotate (m : MemStorage) (address presentedNonce freshNonce : String) :
    Except ConsumeError (User × MemStorage) :=
  match m.users.lookup address with
  | none => .error .notFound
  | some acct =>
    if acct.nonce = presentedNonce then
      .ok (acct, ⟨setKey m.users address { acct with nonce := freshNonce }⟩)
    else .error .nonceMismatch

/-- Modelled from the spec: `SignatureVerifier.Verify(address, nonce,
signature)` of section 4.4, missing from src. The elliptic-curve recovery
routine is abstracted as the function argument `recover`, which returns the
recovered signer address, or `none` on a malformed signature; `Verify`
canonicalizes the recovered address and compares it with the claimed one,
answering `false` (never an error) when recovery fails. -/
def Verify (recover : String → List Nat → Option String)
    (address nonce : String) (signature : List Nat) : Bool :=
  match recover nonce signature with
  | none => false
  | some recovered => goToLower recovered == address

/-- Modelled from the spec: `Login(address, nonce, signature)` of section
4.5, missing from src. Validate the address, consume-and-rotate the nonce
(`NotFound` / `NonceMismatch` on failure), then verify the signature
(`InvalidSignature` on failure, the rotation not being undone), and on
success issue the session token. The fresh nonce drawn during rotation and
the issued token are explicit arguments. -/
def Login (recover : String → List Nat → Option String) (m : MemStorage)
    (address nonce : String) (signature : List Nat) (freshNonce token : String) :
    SigninResult × MemStorage :=
  if !hexRegexMatch address then (.invalidAddress, m)
  else
    match ConsumeAndRotate m (goToLower address) nonce freshNonce with
    | .error .notFound => (.notFound, m)
    | .error .nonceMismatch => (.nonceMismatch, m)
    | .ok (_, m₁) =>
      if Verify recover (goToLower address) nonce signature then (.ok token, m₁)
      else (.invalidSignature, m₁)

/-- Key invariant of the store: every key is a lowercase hex address and the
user stored under it carries that key in its `Address` field. -/
def storeKeyInv (m : MemStorage) : Prop :=
  ∀ q ∈ m.users, lowerHexMatch q.1 = true ∧ q.2.address = q.1

/-- The storages reachable from `NewMemStorage` through the handlers wired
up in `run`: registration with an arbitrary decoded payload and random draw,
and nonce fetch for an arbitrary address. -/
inductive Reachable : MemStorage → Prop where
  | init : Reachable NewMemStorage
  | register (m : MemStorage) (p : RegisterPayload) (r : Nat) :
      Reachable m → Reachable (RegisterHandler m p r).2
  | nonceFetch (m : MemStorage) (address : String) :
      Reachable m → Reachable (UserNonceHandler m address).2.2

/-! Helper lemmas about characters. -/

theorem char_le_iff_toNat (c d : Char) : c ≤ d ↔ c.toNat ≤ d.toNat := Iff.rfl

theorem charToNat_ofNat_valid (n : Nat) (h : n.isValidChar) :
    (Char.ofNat n).toNat = n := by
  rw [Char.ofNat, dif_pos h]
  rfl

theorem toLower_eq_of_upper (c : Char) (h : 65 ≤ c.toNat ∧ c.toNat ≤ 90) :
    Char.toLower c = Char.ofNat (c.toNat + 32) := by
  rw [Char.toLower]
  exact if_pos h

theorem toLower_eq_self (c : Char) (h : ¬(65 ≤ c.toNat ∧ c.toNat ≤ 90)) :
    Char.toLower c = c := by
  rw [Char.toLower]
  exact if_neg h

theorem isGoHexDigit_iff_toNat (c : Char) :
    isGoHexDigit c = true ↔
      (48 ≤ c.toNat ∧ c.toNat ≤ 57) ∨ (97 ≤ c.toNat ∧ c.toNat ≤ 102) ∨
        (65 ≤ c.toNat ∧ c.toNat ≤ 70) := by
  simp only [isGoHexDigit, Bool.or_eq_true, Bool.and_eq_true, decide_eq_true_eq,
    char_le_iff_toNat, show ('a').toNat = 97 from rfl, show ('f').toNat = 102 from rfl,
    show ('A').toNat = 65 from rfl, show ('F').toNat = 70 from rfl,
    show ('0').toNat = 48 from rfl, show ('9').toNat = 57 from rfl]
  omega

theorem isLowerHexDigit_iff_toNat (c : Char) :
    isLowerHexDigit c = true ↔
      (48 ≤ c.toNat ∧ c.toNat ≤ 57) ∨ (97 ≤ c.toNat ∧ c.toNat ≤ 102) := by
  simp only [isLowerHexDigit, Bool.or_eq_true, Bool.and_eq_true, decide_eq_true_eq,
    char_le_iff_toNat, show ('a').toNat = 97 from rfl, show ('f').toNat = 102 from rfl,
    show ('0').toNat = 48 from rfl, show ('9').toNat = 57 from rfl]
  omega

theorem toLower_toLower (c : Char) : Char.toLower (Char.toLower c) = Char.toLower c := by
  by_cases h : 65 ≤ c.toNat ∧ c.toNat ≤ 90
  · have hv : (c.toNat + 32).isValidChar := Or.inl (by omega)
    rw [toLower_eq_of_upper c h, toLower_eq_self]
    rw [charToNat_ofNat_valid _ hv]
    omega
  · rw [toLower_eq_self c h, toLower_eq_self c h]

theorem isLowerHexDigit_toLower (c : Char) (h : isGoHexDigit c = true) :
    isLowerHexDigit (Char.toLower c) = true := by
  rcases (isGoHexDigit_iff_toNat c).1 h with hr | hr | hr
  · rw [toLower_eq_self c (by omega)]
    exact (isLowerHexDigit_iff_toNat c).2 (Or.inl hr)
  · rw [toLower_eq_self c (by omega)]
    exact (isLowerHexDigit_iff_toNat c).2 (Or.inr hr)
  · have hv : (c.toNat + 32).isValidChar := Or.inl (by omega)
    rw [toLower_eq_of_upper c (by omega)]
    refine (isLowerHexDigit_iff_toNat _).2 (Or.inr ?_)
    rw [charToNat_ofNat_valid _ hv]
    omega

/-! Helper lemmas about the association list. -/

theorem lookup_cons (k a : String) (u : User) (l : List (String × User)) :
    List.lookup k ((a, u) :: l) = if k = a then some u else List.lookup k l := by
  by_cases h : k = a
  · simp [List.lookup, h]
  · have hb : (k == a) = false := beq_eq_false_iff_ne.mpr h
    simp [List.lookup, hb, h]

theorem lookup_eq_none_iff (k : String) (l : List (String × User)) :
    List.lookup k l = none ↔ ∀ q ∈ l, q.1 ≠ k := by
  induction l with
  | nil => simp
  | cons q l ih =>
    obtain ⟨a, u⟩ := q
    rw [lookup_cons]
    by_cases h : k = a
    · subst h
      simp
    · rw [if_neg h, ih]
      constructor
      · intro hl q hq
        rcases List.mem_cons.mp hq with hq1 | hq2
        · rw [hq1]
          exact fun he => h he.symm
        · exact hl q hq2
      · intro hall q hq
        exact hall q (List.mem_cons_of_mem _ hq)

theorem countKey_eq_zero_iff (k : String) (l : List (String × User)) :
    countKey l k = 0 ↔ ∀ q ∈ l, q.1 ≠ k := by
  simp [countKey, List.length_eq_zero, List.filter_eq_nil_iff]

theorem countKey_cons_self (k : String) (u : User) (l : List (String × User)) :
    countKey ((k, u) :: l) k = countKey l k + 1 := by
  simp [countKey, List.filter_cons]

theorem lookup_setKey_some (k : String) (v : User) (l : List (String × User))
    (h : (List.lookup k l).isSome) :
    List.lookup k (setKey l k v) = some v := by
  induction l with
  | nil => simp [List.lookup] at h
  | cons q l ih =>
    obtain ⟨a, u⟩ := q
    rw [lookup_cons] at h
    by_cases hk : k = a
    · subst hk
      simp [setKey, lookup_cons]
    · have ha : ¬(a = k) := fun hh => hk hh.symm
      simp only [setKey, List.map_cons, if_neg ha]
      rw [lookup_cons, if_neg hk]
      rw [if_neg hk] at h
      exact ih h

/-! Helper lemmas about the address format and lowercasing. -/

theorem hexRegexMatch_data (s : String) (c₀ c₁ : Char) (rest : List Char)
    (hd : s.data = c₀ :: c₁ :: rest) :
    hexRegexMatch s =
      (c₀ == '0' && c₁ == 'x' && rest.length == 40 && rest.all isGoHexDigit) := by
  unfold hexRegexMatch
  rw [hd]

theorem hexRegexMatch_short (s : String)
    (hd : s.data = [] ∨ ∃ c, s.data = [c]) : hexRegexMatch s = false := by
  unfold hexRegexMatch
  rcases hd with hd | ⟨c, hd⟩ <;> rw [hd]

theorem lowerHexMatch_data (s : String) (c₀ c₁ : Char) (rest : List Char)
    (hd : s.data = c₀ :: c₁ :: rest) :
    lowerHexMatch s =
      (c₀ == '0' && c₁ == 'x' && rest.length == 40 && rest.all isLowerHexDigit) := by
  unfold lowerHexMatch
  rw [hd]

theorem goToLower_data (s : String) : (goToLower s).data = s.data.map Char.toLower :=
  rfl

theorem goToLower_idem (s : String) : goToLower (goToLower s) = goToLower s := by
  unfold goToLower
  apply congrArg String.mk
  rw [List.map_map]
  exact List.map_congr_left fun c _ => toLower_toLower c

theorem lowerHexMatch_goToLower (s : String) (h : hexRegexMatch s = true) :
    lowerHexMatch (goToLower s) = true := by
  cases hd : s.data with
  | nil => rw [hexRegexMatch_short s (Or.inl hd)] at h; cases h
  | cons c₀ tl =>
    cases tl with
    | nil => rw [hexRegexMatch_short s (Or.inr ⟨c₀, hd⟩)] at h; cases h
    | cons c₁ rest =>
      rw [hexRegexMatch_data s c₀ c₁ rest hd] at h
      simp only [Bool.and_eq_true, beq_iff_eq, List.all_eq_true] at h
      obtain ⟨⟨⟨h0, hx⟩, hlen⟩, hall⟩ := h
      have hdl : (goToLower s).data =
          Char.toLower c₀ :: Char.toLower c₁ :: rest.map Char.toLower := by
        rw [goToLower_data, hd]
        rfl
      rw [lowerHexMatch_data (goToLower s) _ _ _ hdl]
      simp only [Bool.and_eq_true, beq_iff_eq, List.all_eq_true, List.length_map,
        List.mem_map]
      subst h0 hx
      refine ⟨⟨⟨rfl, rfl⟩, hlen⟩, ?_⟩
      rintro c ⟨d, hdmem, rfl⟩
      exact isLowerHexDigit_toLower d (hall d hdmem)

/-! Helper lemmas characterizing the handlers. -/

theorem validate_none_iff (p : RegisterPayload) :
    p.Validate = none ↔ hexRegexMatch p.address = true := by
  unfold RegisterPayload.Validate
  cases h : hexRegexMatch p.address <;> simp [h]

theorem registerHandler_400 (storage : MemStorage) (p : RegisterPayload) (r : Nat)
    (hval : hexRegexMatch p.address = false) :
    RegisterHandler storage p r = (400, storage) := by
  have hv : p.Validate = some .invalidAddress := by
    unfold RegisterPayload.Validate
    rw [hval]
    rfl
  unfold RegisterHandler
  rw [hv]

theorem registerHandler_201 (storage : MemStorage) (p : RegisterPayload) (r : Nat)
    (hval : hexRegexMatch p.address = true)
    (habs : List.lookup (goToLower p.address) storage.users = none) :
    RegisterHandler storage p r =
      (201, ⟨(goToLower p.address,
              { address := goToLower p.address, nonce := GetNonce r }) ::
             storage.users⟩) := by
  have hv : p.Validate = none := (validate_none_iff p).2 hval
  have hc : storage.CreateIfNotExists
      { address := goToLower p.address, nonce := GetNonce r } =
      .ok ⟨(goToLower p.address,
            { address := goToLower p.address, nonce := GetNonce r }) ::
           storage.users⟩ := by
    unfold MemStorage.CreateIfNotExists
    rw [habs]
  unfold RegisterHandler
  rw [hv]
  simp only [hc]

theorem registerHandler_409 (storage : MemStorage) (p : RegisterPayload) (r : Nat)
    (hval : hexRegexMatch p.address = true) (u : User)
    (hpres : List.lookup (goToLower p.address) storage.users = some u) :
    RegisterHandler storage p r = (409, storage) := by
  have hv : p.Validate = none := (validate_none_iff p).2 hval
  have hc : storage.CreateIfNotExists
      { address := goToLower p.address, nonce := GetNonce r } =
      .error .userExists := by
    unfold MemStorage.CreateIfNotExists
    rw [hpres]
  unfold RegisterHandler
  rw [hv]
  simp only [hc]
  rfl

theorem userNonceHandler_400 (storage : MemStorage) (address : String)
    (h : hexRegexMatch address = false) :
    UserNonceHandler storage address = (400, none, storage) := by
  unfold UserNonceHandler
  simp [h]

theorem userNonceHandler_200 (storage : MemStorage) (address : String) (u : User)
    (hval : hexRegexMatch address = true)
    (hget : List.lookup (goToLower address) storage.users = some u) :
    UserNonceHandler storage address = (200, some u.nonce, storage) := by
  have hg : storage.Get (goToLower address) = .ok u := by
    unfold MemStorage.Get
    rw [hget]
  unfold UserNonceHandler
  simp [hval, hg]

theorem userNonceHandler_404 (storage : MemStorage) (address : String)
    (hval : hexRegexMatch address = true)
    (hget : List.lookup (goToLower address) storage.users = none) :
    UserNonceHandler storage address = (404, none, storage) := by
  have hg : storage.Get (goToLower address) = .error .userNotExists := by
    unfold MemStorage.Get
    rw [hget]
  unfold UserNonceHandler
  simp [hval, hg]

theorem login_invalidAddress (recover : String → List Nat → Option String)
    (m : MemStorage) (address nonce : String) (sig : List Nat) (fresh tok : String)
    (h : hexRegexMatch address = false) :
    Login recover m address nonce sig fresh tok = (.invalidAddress, m) := by
  unfold Login
  simp [h]

theorem login_notFound (recover : String → List Nat → Option String)
    (m : MemStorage) (address nonce : String) (sig : List Nat) (fresh tok : String)
    (hval : hexRegexMatch address = true)
    (habs : List.lookup (goToLower address) m.users = none) :
    Login recover m address nonce sig fresh tok = (.notFound, m) := by
  have hc : ConsumeAndRotate m (goToLower address) nonce fresh = .error .notFound := by
    unfold ConsumeAndRotate
    rw [habs]
  unfold Login
  simp [hval, hc]

theorem login_nonceMismatch (recover : String → List Nat → Option String)
    (m : MemStorage) (address nonce : String) (sig : List Nat) (fresh tok : String)
    (acct : User) (hval : hexRegexMatch address = true)
    (hsome : List.lookup (goToLower address) m.users = some acct)
    (hne : acct.nonce ≠ nonce) :
    Login recover m address nonce sig fresh tok = (.nonceMismatch, m) := by
  have hc : ConsumeAndRotate m (goToLower address) nonce fresh =
      .error .nonceMismatch := by
    unfold ConsumeAndRotate
    rw [hsome]
    simp [hne]
  unfold Login
  simp [hval, hc]

theorem login_ok (recover : String → List Nat → Option String)
    (m : MemStorage) (address nonce : String) (sig : List Nat) (fresh tok : String)
    (acct : User) (hval : hexRegexMatch address = true)
    (hsome : List.lookup (goToLower address) m.users = some acct)
    (heq : acct.nonce = nonce)
    (hver : Verify recover (goToLower address) nonce sig = true) :
    Login recover m address nonce sig fresh tok =
      (.ok tok, ⟨setKey m.users (goToLower address) { acct with nonce := fresh }⟩) := by
  have hc : ConsumeAndRotate m (goToLower address) nonce fresh =
      .ok (acct, ⟨setKey m.users (goToLower address) { acct with nonce := fresh }⟩) := by
    unfold ConsumeAndRotate
    rw [hsome]
    simp [heq]
  unfold Login
  simp [hval, hc, hver]

theorem login_invalidSignature (recover : String → List Nat → Option String)
    (m : MemStorage) (address nonce : String) (sig : List Nat) (fresh tok : String)
    (acct : User) (hval : hexRegexMatch address = true)
    (hsome : List.lookup (goToLower address) m.users = some acct)
    (heq : acct.nonce = nonce)
    (hver : Verify recover (goToLower address) nonce sig = false) :
    Login recover m address nonce sig fresh tok =
      (.invalidSignature,
        ⟨setKey m.users (goToLower address) { acct with nonce := fresh }⟩) := by
  have hc : ConsumeAndRotate m (goToLower address) nonce fresh =
      .ok (acct, ⟨setKey m.users (goToLower address) { acct with nonce := fresh }⟩) := by
    unfold ConsumeAndRotate
    rw [hsome]
    simp [heq]
  unfold Login
  simp [hval, hc, hver]

theorem isGoHexDigit_iff_prop (c : Char) :
    isGoHexDigit c = true ↔
      ('0' ≤ c ∧ c ≤ '9') ∨ ('a' ≤ c ∧ c ≤ 'f') ∨ ('A' ≤ c ∧ c ≤ 'F') := by
  simp only [isGoHexDigit, Bool.or_eq_true, Bool.and_eq_true, decide_eq_true_eq]
  tauto

theorem hexRegexMatch_iff_spec (s : String) :
    hexRegexMatch s = true ↔ specHexPattern s := by
  unfold specHexPattern
  cases hd : s.data with
  | nil =>
    rw [hexRegexMatch_short s (Or.inl hd)]
    simp
  | cons c₀ tl =>
    cases tl with
    | nil =>
      rw [hexRegexMatch_short s (Or.inr ⟨c₀, hd⟩)]
      simp
    | cons c₁ rest =>
      rw [hexRegexMatch_data s c₀ c₁ rest hd]
      simp only [Bool.and_eq_true, beq_iff_eq, List.all_eq_true]
      constructor
      · rintro ⟨⟨⟨h0, hx⟩, hlen⟩, hall⟩
        subst h0
        subst hx
        exact ⟨rest, rfl, hlen, fun c hc => (isGoHexDigit_iff_prop c).1 (hall c hc)⟩
      · rintro ⟨t, ht, hlen, hall⟩
        obtain ⟨h0, hx, hrest⟩ : c₀ = '0' ∧ c₁ = 'x' ∧ rest = t := by
          injection ht with ht0 ht1
          injection ht1 with ht1 ht2
          exact ⟨ht0, ht1, ht2⟩
        subst h0
        subst hx
        subst hrest
        exact ⟨⟨⟨rfl, rfl⟩, hlen⟩, fun c hc => (isGoHexDigit_iff_prop c).2 (hall c hc)⟩

theorem memGet_ok_iff (m : MemStorage) (k : String) (u : User) :
    m.Get k = .ok u ↔ List.lookup k m.users = some u := by
  unfold MemStorage.Get
  cases h : List.lookup k m.users <;> simp [h]

theorem memGet_notExists_iff (m : MemStorage) (k : String) :
    m.Get k = .error .userNotExists ↔ List.lookup k m.users = none := by
  unfold MemStorage.Get
  cases h : List.lookup k m.users <;> simp [h]

theorem registerHandler_201_inv (storage : MemStorage) (p : RegisterPayload)
    (r : Nat) (s₁ : MemStorage) (h : RegisterHandler storage p r = (201, s₁)) :
    hexRegexMatch p.address = true ∧
    List.lookup (goToLower p.address) storage.users = none ∧
    s₁ = ⟨(goToLower p.address,
           { address := goToLower p.address, nonce := GetNonce r }) ::
          storage.users⟩ := by
  cases hval : hexRegexMatch p.address with
  | false =>
    rw [registerHandler_400 storage p r hval] at h
    simp at h
  | true =>
    cases hl : List.lookup (goToLower p.address) storage.users with
    | none =>
      rw [registerHandler_201 storage p r hval hl] at h
      simp only [Prod.mk.injEq] at h
      exact ⟨rfl, rfl, h.2.symm⟩
    | some u =>
      rw [registerHandler_409 storage p r hval u hl] at h
      simp at h

theorem userNonceHandler_storage (m : MemStorage) (address : String) :
    (UserNonceHandler m address).2.2 = m := by
  unfold UserNonceHandler
  cases hval : hexRegexMatch address with
  | false => simp
  | true =>
    simp only [Bool.not_true, Bool.false_eq_true, if_false]
    cases hg : m.Get (goToLower address) with
    | error e => cases e <;> simp
    | ok u => simp

theorem toLower_eq_of_caseVariant (c₁ c₂ : Char) (h : charCaseVariant c₁ c₂) :
    Char.toLower c₁ = Char.toLower c₂ := by
  rcases h with rfl | ⟨_, rfl⟩ | ⟨_, rfl⟩
  · rfl
  · rw [toLower_toLower]
  · rw [toLower_toLower]

theorem map_toLower_eq_of_caseVariant (l₁ l₂ : List Char)
    (hlen : l₁.length = l₂.length)
    (h : ∀ q ∈ l₁.zip l₂, charCaseVariant q.1 q.2) :
    l₁.map Char.toLower = l₂.map Char.toLower := by
  induction l₁ generalizing l₂ with
  | nil =>
    cases l₂ with
    | nil => rfl
    | cons c₂ t₂ => simp at hlen
  | cons c₁ t₁ ih =>
    cases l₂ with
    | nil => simp at hlen
    | cons c₂ t₂ =>
      simp only [List.map_cons]
      have hc := h (c₁, c₂) (by simp [List.zip_cons_cons])
      rw [toLower_eq_of_caseVariant _ _ hc,
        ih t₂ (by simpa using hlen) (fun q hq => h q (by simp [List.zip_cons_cons, hq]))]

theorem registerHandler_congr (storage : MemStorage) (a₁ a₂ : String) (r : Nat)
    (h₁ : hexRegexMatch a₁ = true) (h₂ : hexRegexMatch a₂ = true)
    (heq : goToLower a₁ = goToLower a₂) :
    RegisterHandler storage ⟨a₁⟩ r = RegisterHandler storage ⟨a₂⟩ r := by
  cases hl : List.lookup (goToLower a₁) storage.users with
  | none =>
    rw [registerHandler_201 storage ⟨a₁⟩ r h₁ hl,
      registerHandler_201 storage ⟨a₂⟩ r h₂ (by rw [show goToLower (⟨a₂⟩ : RegisterPayload).address = goToLower a₁ from heq.symm]; exact hl)]
    simp only [Prod.mk.injEq, MemStorage.mk.injEq, true_and]
    rw [show goToLower (⟨a₂⟩ : RegisterPayload).address = goToLower a₁ from heq.symm]
  | some u =>
    rw [registerHandler_409 storage ⟨a₁⟩ r h₁ u hl,
      registerHandler_409 storage ⟨a₂⟩ r h₂ u (by rw [show goToLower (⟨a₂⟩ : RegisterPayload).address = goToLower a₁ from heq.symm]; exact hl)]

/-! Claim theorems. -/

/-- C3: address validation succeeds exactly on the strings of the form 0x
followed by forty case-insensitive hex digits (`specHexPattern`, stated
independently of the regex engine); and whenever registration succeeds the
account is stored under the lowercased address as key. Validation itself is
a pure function of the payload in this embedding. -/
theorem C3_validate_characterization :
    (∀ p : RegisterPayload, p.Validate = none ↔ specHexPattern p.address) ∧
    (∀ (storage : MemStorage) (p : RegisterPayload) (r : Nat) (s₁ : MemStorage),
        RegisterHandler storage p r = (201, s₁) →
        List.lookup (goToLower p.address) s₁.users =
          some { address := goToLower p.address, nonce := GetNonce r }) := by
  constructor
  · intro p
    rw [validate_none_iff]
    exact hexRegexMatch_iff_spec p.address
  · intro storage p r s₁ h
    obtain ⟨_, _, hs₁⟩ := registerHandler_201_inv storage p r s₁ h
    subst hs₁
    rw [lookup_cons, if_pos rfl]

/-- C3 witness at a concrete mixed-case address: validation succeeds and the
registered account sits under the lowercased key. -/
theorem C3_witness :
    specHexPattern "0xAbCdEf0123456789aBcDeF0123456789abcdef01" ∧
    List.lookup (goToLower "0xAbCdEf0123456789aBcDeF0123456789abcdef01")
        ((RegisterHandler NewMemStorage
          ⟨"0xAbCdEf0123456789aBcDeF0123456789abcdef01"⟩ 5).2).users =
      some { address := goToLower "0xAbCdEf0123456789aBcDeF0123456789abcdef01",
             nonce := GetNonce 5 } :=
  ⟨(C3_validate_characterization.1
      ⟨"0xAbCdEf0123456789aBcDeF0123456789abcdef01"⟩).1 (by decide),
   C3_validate_characterization.2 NewMemStorage
     ⟨"0xAbCdEf0123456789aBcDeF0123456789abcdef01"⟩ 5
     (RegisterHandler NewMemStorage
       ⟨"0xAbCdEf0123456789aBcDeF0123456789abcdef01"⟩ 5).2 (by decide)⟩

/-- C4 counterexample: the value 2 to the 130 minus 1 named by the claim as a
possible output is not a possible draw of the nonce generator, because
rand.Int samples strictly below the bound max = 2 to the 130 minus 1. -/
theorem C4_counterexample : ¬ noncePossible (2 ^ 130 - 1) := by
  unfold noncePossible nonceMax
  omega

/-- C4 amended: the possible draws of the nonce generator are exactly the
integers of the inclusive range from 0 to 2 to the 130 minus 2 (the bound
handed to rand.Int is exclusive), rendered in decimal by `GetNonce`. -/
theorem C4_nonce_range :
    ∀ r : Nat, noncePossible r ↔ r ≤ 2 ^ 130 - 2 := by
  intro r
  unfold noncePossible nonceMax
  omega

/-- C4 witness: 0 and the top value 2 to the 130 minus 2 are both possible
draws. -/
theorem C4_witness : noncePossible 0 ∧ noncePossible (2 ^ 130 - 2) :=
  ⟨(C4_nonce_range 0).2 (by omega), (C4_nonce_range (2 ^ 130 - 2)).2 (by omega)⟩

/-- C5: registering a valid unregistered address twice in sequence answers
201 Created with the account inserted, then 409 Conflict leaving the store
untouched, and the store afterwards holds exactly one entry for that
address. -/
theorem C5_register_twice (storage : MemStorage) (p : RegisterPayload)
    (r₁ r₂ : Nat) (hval : hexRegexMatch p.address = true)
    (habs : List.lookup (goToLower p.address) storage.users = none) :
    ∃ s₁ : MemStorage,
      RegisterHandler storage p r₁ = (201, s₁) ∧
      RegisterHandler s₁ p r₂ = (409, s₁) ∧
      countKey s₁.users (goToLower p.address) = 1 := by
  refine ⟨_, registerHandler_201 storage p r₁ hval habs, ?_, ?_⟩
  · apply registerHandler_409 _ p r₂ hval
      { address := goToLower p.address, nonce := GetNonce r₁ }
    rw [lookup_cons, if_pos rfl]
  · rw [countKey_cons_self]
    have h0 : countKey storage.users (goToLower p.address) = 0 :=
      (countKey_eq_zero_iff _ _).2 ((lookup_eq_none_iff _ _).1 habs)
    omega

/-- C5 witness at a concrete address over the empty store. -/
theorem C5_witness :
    ∃ s₁ : MemStorage,
      RegisterHandler NewMemStorage
        ⟨"0xAbCdEf0123456789aBcDeF0123456789abcdef01"⟩ 1 = (201, s₁) ∧
      RegisterHandler s₁ ⟨"0xAbCdEf0123456789aBcDeF0123456789abcdef01"⟩ 2 =
        (409, s₁) ∧
      countKey s₁.users
        (goToLower "0xAbCdEf0123456789aBcDeF0123456789abcdef01") = 1 :=
  C5_register_twice NewMemStorage ⟨"0xAbCdEf0123456789aBcDeF0123456789abcdef01"⟩
    1 2 (by decide) rfl

/-- C6: for a valid address the nonce-challenge endpoint answers 200 with
exactly the stored nonce of the registered account, without touching the
store, and 404 NotFound when the address is unregistered. -/
theorem C6_get_challenge (storage : MemStorage) (address : String)
    (hval : hexRegexMatch address = true) :
    (∀ u : User, storage.Get (goToLower address) = .ok u →
        UserNonceHandler storage address = (200, some u.nonce, storage)) ∧
    (storage.Get (goToLower address) = .error .userNotExists →
        UserNonceHandler storage address = (404, none, storage)) := by
  constructor
  · intro u hu
    exact userNonceHandler_200 storage address u hval ((memGet_ok_iff _ _ _).1 hu)
  · intro hn
    exact userNonceHandler_404 storage address hval ((memGet_notExists_iff _ _).1 hn)

/-- C6 witness: a store holding the address with nonce 7 answers 200 with
that nonce; the empty store answers 404. -/
theorem C6_witness :
    UserNonceHandler
      ⟨[("0xabcdef0123456789abcdef0123456789abcdef01",
         { address := "0xabcdef0123456789abcdef0123456789abcdef01", nonce := "7" })]⟩
      "0xAbCdEf0123456789aBcDeF0123456789abcdef01" =
      (200, some "7",
        ⟨[("0xabcdef0123456789abcdef0123456789abcdef01",
           { address := "0xabcdef0123456789abcdef0123456789abcdef01", nonce := "7" })]⟩) ∧
    UserNonceHandler NewMemStorage "0xAbCdEf0123456789aBcDeF0123456789abcdef01" =
      (404, none, NewMemStorage) :=
  ⟨(C6_get_challenge
      ⟨[("0xabcdef0123456789abcdef0123456789abcdef01",
         { address := "0xabcdef0123456789abcdef0123456789abcdef01", nonce := "7" })]⟩
      "0xAbCdEf0123456789aBcDeF0123456789abcdef01" (by decide)).1
    { address := "0xabcdef0123456789abcdef0123456789abcdef01", nonce := "7" }
    rfl,
   (C6_get_challenge NewMemStorage
      "0xAbCdEf0123456789aBcDeF0123456789abcdef01" (by decide)).2 rfl⟩

/-- C7: a malformed address is rejected with status 400 by all three
endpoints, the store being neither consulted nor changed (the answers are
the same whatever the store holds, which is returned untouched). -/
theorem C7_malformed_rejected (address : String)
    (h : hexRegexMatch address = false) :
    (∀ (storage : MemStorage) (r : Nat),
        RegisterHandler storage ⟨address⟩ r = (400, storage)) ∧
    (∀ storage : MemStorage,
        UserNonceHandler storage address = (400, none, storage)) ∧
    (∀ (recover : String → List Nat → Option String) (storage : MemStorage)
        (nonce : String) (sig : List Nat) (fresh tok : String),
        Login recover storage address nonce sig fresh tok =
          (.invalidAddress, storage)) ∧
    SigninResult.invalidAddress.status = 400 := by
  refine ⟨fun storage r => registerHandler_400 storage ⟨address⟩ r h,
    fun storage => userNonceHandler_400 storage address h,
    fun recover storage nonce sig fresh tok =>
      login_invalidAddress recover storage address nonce sig fresh tok h,
    rfl⟩

/-- C7 witness at the spec's too-short address over a nonempty store. -/
theorem C7_witness :
    RegisterHandler ⟨[("k", { address := "k", nonce := "1" })]⟩ ⟨"0x123"⟩ 9 =
      (400, ⟨[("k", { address := "k", nonce := "1" })]⟩) ∧
    UserNonceHandler ⟨[("k", { address := "k", nonce := "1" })]⟩ "0x123" =
      (400, none, ⟨[("k", { address := "k", nonce := "1" })]⟩) ∧
    Login (fun _ _ => none) ⟨[("k", { address := "k", nonce := "1" })]⟩
        "0x123" "n" [] "f" "t" =
      (.invalidAddress, ⟨[("k", { address := "k", nonce := "1" })]⟩) :=
  ⟨(C7_malformed_rejected "0x123" (by decide)).1
      ⟨[("k", { address := "k", nonce := "1" })]⟩ 9,
   (C7_malformed_rejected "0x123" (by decide)).2.1
      ⟨[("k", { address := "k", nonce := "1" })]⟩,
   (C7_malformed_rejected "0x123" (by decide)).2.2.1 (fun _ _ => none)
      ⟨[("k", { address := "k", nonce := "1" })]⟩ "n" [] "f" "t"⟩

/-- C9: canonicalization is case-insensitive and idempotent: two valid
addresses equal up to letter case lowercase to the same key, registration
treats them identically, and lowercasing is idempotent on every string. -/
theorem C9_canonicalization (s₁ s₂ : String)
    (h₁ : hexRegexMatch s₁ = true) (h₂ : hexRegexMatch s₂ = true)
    (hlen : s₁.data.length = s₂.data.length)
    (hcase : ∀ q ∈ s₁.data.zip s₂.data, charCaseVariant q.1 q.2) :
    goToLower s₁ = goToLower s₂ ∧
    (∀ (storage : MemStorage) (r : Nat),
        RegisterHandler storage ⟨s₁⟩ r = RegisterHandler storage ⟨s₂⟩ r) ∧
    (∀ s : String, goToLower (goToLower s) = goToLower s) := by
  have hlow : goToLower s₁ = goToLower s₂ := by
    unfold goToLower
    exact congrArg String.mk (map_toLower_eq_of_caseVariant _ _ hlen hcase)
  exact ⟨hlow, fun storage r => registerHandler_congr storage s₁ s₂ r h₁ h₂ hlow,
    goToLower_idem⟩

/-- C9 witness: the mixed-case and lowercase spellings of one address
canonicalize identically and register identically. -/
theorem C9_witness :
    goToLower "0xAbCdEf0123456789aBcDeF0123456789abcdef01" =
      goToLower "0xabcdef0123456789abcdef0123456789abcdef01" ∧
    RegisterHandler NewMemStorage
        ⟨"0xAbCdEf0123456789aBcDeF0123456789abcdef01"⟩ 3 =
      RegisterHandler NewMemStorage
        ⟨"0xabcdef0123456789abcdef0123456789abcdef01"⟩ 3 ∧
    goToLower (goToLower "0xAbCdEf0123456789aBcDeF0123456789abcdef01") =
      goToLower "0xAbCdEf0123456789aBcDeF0123456789abcdef01" := by
  obtain ⟨ha, hb, hc⟩ := C9_canonicalization
    "0xAbCdEf0123456789aBcDeF0123456789abcdef01"
    "0xabcdef0123456789abcdef0123456789abcdef01"
    (by decide) (by decide) (by decide) (by decide)
  exact ⟨ha, hb NewMemStorage 3, hc "0xAbCdEf0123456789aBcDeF0123456789abcdef01"⟩

/-- C10: every store reachable from the empty store through the register and
nonce-fetch handlers satisfies the key invariant: each key is a lowercase
0x-prefixed 40-digit hex string and the user under it carries the key as its
address. -/
theorem C10_store_key_invariant (m : MemStorage) (h : Reachable m) :
    storeKeyInv m := by
  induction h with
  | init =>
    intro q hq
    cases hq
  | register m p r hm ih =>
    cases hval : hexRegexMatch p.address with
    | false =>
      rw [registerHandler_400 m p r hval]
      exact ih
    | true =>
      cases hl : List.lookup (goToLower p.address) m.users with
      | none =>
        rw [registerHandler_201 m p r hval hl]
        intro q hq
        rcases List.mem_cons.mp hq with hq1 | hq2
        · rw [hq1]
          exact ⟨lowerHexMatch_goToLower p.address hval, rfl⟩
        · exact ih q hq2
      | some u =>
        rw [registerHandler_409 m p r hval u hl]
        exact ih
  | nonceFetch m address hm ih =>
    rw [userNonceHandler_storage m address]
    exact ih

/-- C10 witness: the store after one successful registration is reachable
and satisfies the invariant. -/
theorem C10_witness :
    storeKeyInv (RegisterHandler NewMemStorage
      ⟨"0xAbCdEf0123456789aBcDeF0123456789abcdef01"⟩ 5).2 :=
  C10_store_key_invariant _
    (Reachable.register NewMemStorage
      ⟨"0xAbCdEf0123456789aBcDeF0123456789abcdef01"⟩ 5 Reachable.init)

/-- C1: a nonce is accepted at most once: with a registered account holding
the presented nonce and a verifying signature, the first Login succeeds and
rotates the stored nonce to the fresh draw (distinct from the consumed one),
and the identical second attempt fails NonceMismatch, leaving the store as
the first call left it. -/
theorem C1_nonce_single_use (recover : String → List Nat → Option String)
    (m : MemStorage) (address nonce : String) (sig : List Nat)
    (fresh₁ fresh₂ tok₁ tok₂ : String) (acct : User)
    (hval : hexRegexMatch address = true)
    (hacct : List.lookup (goToLower address) m.users = some acct)
    (hnonce : acct.nonce = nonce)
    (hver : Verify recover (goToLower address) nonce sig = true)
    (hfresh : fresh₁ ≠ nonce) :
    ∃ m₁ : MemStorage,
      Login recover m address nonce sig fresh₁ tok₁ = (.ok tok₁, m₁) ∧
      Login recover m₁ address nonce sig fresh₂ tok₂ = (.nonceMismatch, m₁) := by
  refine ⟨_,
    login_ok recover m address nonce sig fresh₁ tok₁ acct hval hacct hnonce hver,
    ?_⟩
  have hl₁ : List.lookup (goToLower address)
      (setKey m.users (goToLower address) { acct with nonce := fresh₁ }) =
      some { acct with nonce := fresh₁ } :=
    lookup_setKey_some _ _ _ (by rw [hacct]; rfl)
  exact login_nonceMismatch recover _ address nonce sig fresh₂ tok₂
    { acct with nonce := fresh₁ } hval hl₁ hfresh

/-- C1 witness: a concrete registered account, a recovery function returning
the matching address, and the same nonce presented twice: one success, one
NonceMismatch. -/
theorem C1_witness :
    ∃ m₁ : MemStorage,
      Login (fun _ _ => some "0xAbCdEf0123456789aBcDeF0123456789abcdef01")
          ⟨[("0xabcdef0123456789abcdef0123456789abcdef01",
             { address := "0xabcdef0123456789abcdef0123456789abcdef01",
               nonce := "42" })]⟩
          "0xAbCdEf0123456789aBcDeF0123456789abcdef01" "42" [1] "43" "t1" =
        (.ok "t1", m₁) ∧
      Login (fun _ _ => some "0xAbCdEf0123456789aBcDeF0123456789abcdef01")
          m₁ "0xAbCdEf0123456789aBcDeF0123456789abcdef01" "42" [1] "44" "t2" =
        (.nonceMismatch, m₁) :=
  C1_nonce_single_use
    (fun _ _ => some "0xAbCdEf0123456789aBcDeF0123456789abcdef01")
    ⟨[("0xabcdef0123456789abcdef0123456789abcdef01",
       { address := "0xabcdef0123456789abcdef0123456789abcdef01",
         nonce := "42" })]⟩
    "0xAbCdEf0123456789aBcDeF0123456789abcdef01" "42" [1] "43" "44" "t1" "t2"
    { address := "0xabcdef0123456789abcdef0123456789abcdef01", nonce := "42" }
    (by decide) rfl rfl (by decide) (by decide)

/-- C2: every signin outcome carries status 200, 400, 401 or 404, and a
session token is issued only when the address validated, the account was
registered, the presented nonce equaled the stored (unconsumed) one and the
signature verified. -/
theorem C2_signin_outcomes (recover : String → List Nat → Option String)
    (m : MemStorage) (address nonce : String) (sig : List Nat)
    (fresh tok : String) :
    ((Login recover m address nonce sig fresh tok).1.status = 200 ∨
     (Login recover m address nonce sig fresh tok).1.status = 400 ∨
     (Login recover m address nonce sig fresh tok).1.status = 401 ∨
     (Login recover m address nonce sig fresh tok).1.status = 404) ∧
    (∀ t : String, (Login recover m address nonce sig fresh tok).1 = .ok t →
        t = tok ∧ hexRegexMatch address = true ∧
        ∃ acct : User,
          List.lookup (goToLower address) m.users = some acct ∧
          acct.nonce = nonce ∧
          Verify recover (goToLower address) nonce sig = true) := by
  cases hval : hexRegexMatch address with
  | false =>
    rw [login_invalidAddress recover m address nonce sig fresh tok hval]
    exact ⟨Or.inr (Or.inl rfl), fun t ht => by cases ht⟩
  | true =>
    cases hl : List.lookup (goToLower address) m.users with
    | none =>
      rw [login_notFound recover m address nonce sig fresh tok hval hl]
      exact ⟨Or.inr (Or.inr (Or.inr rfl)), fun t ht => by cases ht⟩
    | some acct =>
      by_cases heq : acct.nonce = nonce
      · cases hver : Verify recover (goToLower address) nonce sig with
        | true =>
          rw [login_ok recover m address nonce sig fresh tok acct hval hl heq hver]
          refine ⟨Or.inl rfl, fun t ht => ?_⟩
          have htok : tok = t := by injection ht
          exact ⟨htok.symm, rfl, acct, rfl, heq, rfl⟩
        | false =>
          rw [login_invalidSignature recover m address nonce sig fresh tok acct
            hval hl heq hver]
          exact ⟨Or.inr (Or.inr (Or.inl rfl)), fun t ht => by cases ht⟩
      · rw [login_nonceMismatch recover m address nonce sig fresh tok acct
          hval hl heq]
        exact ⟨Or.inr (Or.inr (Or.inl rfl)), fun t ht => by cases ht⟩

/-- C2 witness: at a concrete successful signin the status disjunction holds
and the token implication yields the verification facts. -/
theorem C2_witness :
    ((Login (fun _ _ => some "0xAbCdEf0123456789aBcDeF0123456789abcdef01")
        ⟨[("0xabcdef0123456789abcdef0123456789abcdef01",
           { address := "0xabcdef0123456789abcdef0123456789abcdef01",
             nonce := "42" })]⟩
        "0xAbCdEf0123456789aBcDeF0123456789abcdef01" "42" [1] "43"
        "tok").1.status = 200 ∨
     (Login (fun _ _ => some "0xAbCdEf0123456789aBcDeF0123456789abcdef01")
        ⟨[("0xabcdef0123456789abcdef0123456789abcdef01",
           { address := "0xabcdef0123456789abcdef0123456789abcdef01",
             nonce := "42" })]⟩
        "0xAbCdEf0123456789aBcDeF0123456789abcdef01" "42" [1] "43"
        "tok").1.status = 400 ∨
     (Login (fun _ _ => some "0xAbCdEf0123456789aBcDeF0123456789abcdef01")
        ⟨[("0xabcdef0123456789abcdef0123456789abcdef01",
           { address := "0xabcdef0123456789abcdef0123456789abcdef01",
             nonce := "42" })]⟩
        "0xAbCdEf0123456789aBcDeF0123456789abcdef01" "42" [1] "43"
        "tok").1.status = 401 ∨
     (Login (fun _ _ => some "0xAbCdEf0123456789aBcDeF0123456789abcdef01")
        ⟨[("0xabcdef0123456789abcdef0123456789abcdef01",
           { address := "0xabcdef0123456789abcdef0123456789abcdef01",
             nonce := "42" })]⟩
        "0xAbCdEf0123456789aBcDeF0123456789abcdef01" "42" [1] "43"
        "tok").1.status = 404) ∧
    ("tok" = "tok" ∧
     hexRegexMatch "0xAbCdEf0123456789aBcDeF0123456789abcdef01" = true ∧
     ∃ acct : User,
       List.lookup (goToLower "0xAbCdEf0123456789aBcDeF0123456789abcdef01")
         [("0xabcdef0123456789abcdef0123456789abcdef01",
           { address := "0xabcdef0123456789abcdef0123456789abcdef01",
             nonce := "42" })] = some acct ∧
       acct.nonce = "42" ∧
       Verify (fun _ _ => some "0xAbCdEf0123456789aBcDeF0123456789abcdef01")
         (goToLower "0xAbCdEf0123456789aBcDeF0123456789abcdef01") "42" [1] =
           true) :=
  ⟨(C2_signin_outcomes
      (fun _ _ => some "0xAbCdEf0123456789aBcDeF0123456789abcdef01")
      ⟨[("0xabcdef0123456789abcdef0123456789abcdef01",
         { address := "0xabcdef0123456789abcdef0123456789abcdef01",
           nonce := "42" })]⟩
      "0xAbCdEf0123456789aBcDeF0123456789abcdef01" "42" [1] "43" "tok").1,
   (C2_signin_outcomes
      (fun _ _ => some "0xAbCdEf0123456789aBcDeF0123456789abcdef01")
      ⟨[("0xabcdef0123456789abcdef0123456789abcdef01",
         { address := "0xabcdef0123456789abcdef0123456789abcdef01",
           nonce := "42" })]⟩
      "0xAbCdEf0123456789aBcDeF0123456789abcdef01" "42" [1] "43" "tok").2
     "tok" (by decide)⟩

/-- C8: signature verification is total and fail-closed: when the recovery
routine reports a malformed signature (`none`), Verify answers false rather
than an error. -/
theorem C8_verify_total (recover : String → List Nat → Option String)
    (address nonce : String) (sig : List Nat) (h : recover nonce sig = none) :
    Verify recover address nonce sig = false := by
  unfold Verify
  rw [h]

/-- C8 witness: a recovery function failing on every input makes Verify
answer false. -/
theorem C8_witness :
    Verify (fun _ _ => none) "0xab" "1" [0] = false :=
  C8_verify_total (fun _ _ => none) "0xab" "1" [0] rfl

end Backend
